import Mathlib

/-!
Shallow embedding of the recipe listing / filtering / pagination engine of the
lomithBackend repository, together with proofs about its behaviour.

The embedding works at three levels of granularity, each faithful to the part
of the source it models:

* a record-structure level (`Recipe`, `mocked_get_list`, `service_get_list`,
  `endpoint_get_list`) for the filtering, pagination and validation logic of
  `MockedRecipesRepository.get_list`, `RecipesService.get_list` and the
  `get_list` endpoint;
* a Python-dict level (`PyDict`, `format_recipe`, `mocked_update`,
  `mocked_create`, `mocked_delete`) for the parts of the code whose behaviour
  depends on which keys a mapping holds (`RecipesService._format_recipe`,
  `MockedRecipesRepository.update/create/delete`);
* a heap level (`Heap`, `heap_format_recipe`) for aliasing behaviour of
  `dict.copy` inside `_format_recipe`, where object identity matters.

Machine integers of the source are Python arbitrary-precision ints, so `Nat`
and `Int` are used directly with no wrap-around.
-/

namespace Lomith

/-! ## Python value and dict model -/

/-- A Python value as it appears inside a recipe mapping: strings, ints,
lists, nested string-keyed dicts, and `None`. -/
inductive PVal where
  | vStr (s : String)
  | vInt (n : Int)
  | vList (xs : List PVal)
  | vDict (entries : List (String × PVal))
  | vNone

/-- A Python dict with string keys, as an association list in insertion
order. The dicts built by the source never hold duplicate keys. -/
abbrev PyDict := List (String × PVal)

/-- First binding of key `k`, i.e. Python `d.get(k)` returning `None` as
`Option.none` when the key is missing. -/
def alistGet {α : Type} (d : List (String × α)) (k : String) : Option α :=
  match d with
  | [] => Option.none
  | (k0, v) :: rest => if k0 = k then some v else alistGet rest k

/-- Python `d[k]`: the value at `k`, or a `KeyError` (modelled as
`Except.error ()`) when the key is missing. -/
def pyIndex (d : PyDict) (k : String) : Except Unit PVal :=
  match alistGet d k with
  | some v => Except.ok v
  | Option.none => Except.error ()

/-- Python `value == some_string` where `value` came from `d.get(k)`:
true exactly when the value is that string (comparison with `None` or a
non-string value is `False` in Python). -/
def pvalIsStr (v : Option PVal) (s : String) : Bool :=
  match v with
  | some (PVal.vStr t) => t == s
  | _ => false

/-- One existing binding of `d` after `d.update(upd)`: rebound when its
key is in `upd`, kept otherwise. -/
def updEntry (upd : PyDict) (e : String × PVal) : String × PVal :=
  match alistGet upd e.1 with
  | some v => (e.1, v)
  | Option.none => e

/-- Python `dict.update(upd)` on `d`: every key of `upd` is (re)bound to the
value from `upd`; keys of `d` absent from `upd` keep their value. Existing
keys keep their position, new keys are appended in `upd` order, matching
insertion-order semantics of Python dicts. -/
def pyDictUpdate (d upd : PyDict) : PyDict :=
  d.map (updEntry upd) ++ upd.filter (fun e => (alistGet d e.1).isNone)

/-! ## Record-structure model of the Recipe TypedDict (db/mocked/recipes.py) -/

/-- `Ingredient` TypedDict from db/mocked/recipes.py. -/
structure Ingredient where
  id : String
  name : String
  amount : String
  unit : String
deriving DecidableEq

/-- `Step` TypedDict from db/mocked/recipes.py; `ingredients` holds
ingredient-id references. -/
structure Step where
  id : String
  instructions : String
  ingredients : List String
deriving DecidableEq

/-- `Recipe` TypedDict from db/mocked/recipes.py; all keys are required
there, including `imageUrl`. -/
structure Recipe where
  id : String
  userId : String
  title : String
  description : String
  prepTime : Int
  cookTime : Int
  servings : Int
  imageUrl : String
  ingredients : List Ingredient
  steps : List Step
  tags : List String
  createdAt : String
  updatedAt : String
deriving DecidableEq

/-- Python `s.lower()` restricted to per-character lowering, as a char
list. The source lowers both sides of every comparison with the same
function, so only its uniformity matters. -/
def pyLower (s : String) : List Char :=
  s.toList.map Char.toLower

/-- Python substring test `needle in haystack` on char lists: `true` iff
`needle` occurs contiguously inside `haystack`. -/
def strContains (needle haystack : List Char) : Bool :=
  needle.isPrefixOf haystack ||
    match haystack with
    | [] => false
    | _ :: t => strContains needle t

/-- One recipe's search test from `MockedRecipesRepository.get_list`
(lines 45-60): the query is lowered once and tested as a substring of the
lowered title, then the lowered description, then each lowered tag. -/
def searchHit (query : String) (r : Recipe) : Bool :=
  let ql := pyLower query
  strContains ql (pyLower r.title) ||
  strContains ql (pyLower r.description) ||
  r.tags.any (fun t => strContains ql (pyLower t))

/-- Filtering stage of `MockedRecipesRepository.get_list` (lines 30-62).
Python `if user_id:` and `if search:` are truthiness tests, so a filter
that is `None` or the empty string is skipped. -/
def filterRecipes (recipes : List Recipe) (user_id search : Option String) :
    List Recipe :=
  let afterUser :=
    match user_id with
    | Option.none => recipes
    | some u => if u = "" then recipes else recipes.filter (fun r => r.userId == u)
  match search with
  | Option.none => afterUser
  | some q => if q = "" then afterUser else afterUser.filter (searchHit q)

/-- `MockedRecipesRepository.get_list` (lines 19-73): filter, count, then
slice `[start, start + page_size)`. The final deep copies are the identity
at this value level. `page ≥ 1` in every caller, so the Python slice start
`(page-1)*page_size` is the nonnegative `Nat` value used here. -/
def mocked_get_list (recipes : List Recipe) (user_id search : Option String)
    (page page_size : Nat) : List Recipe × Nat :=
  let filtered := filterRecipes recipes user_id search
  let total := filtered.length
  let start_index := (page - 1) * page_size
  ((filtered.drop start_index).take page_size, total)

/-! ## Formatter (RecipesService._format_recipe) at the dict level -/

/-- The two detail levels accepted by the service. -/
inductive DetailLevel where
  | simple
  | detailed
deriving DecidableEq

/-- `RecipesService._format_recipe` (lines 75-99) on a recipe mapping:
`simple` builds a new dict from the six subscripted keys (a missing key is
a `KeyError`); `detailed` is `recipe.copy()`, value-equal to the input. -/
def format_recipe (recipe : PyDict) (detail_level : DetailLevel) :
    Except Unit PyDict :=
  match detail_level with
  | DetailLevel.simple => do
      let i ← pyIndex recipe "id"
      let u ← pyIndex recipe "userId"
      let t ← pyIndex recipe "title"
      let de ← pyIndex recipe "description"
      let im ← pyIndex recipe "imageUrl"
      let tg ← pyIndex recipe "tags"
      Except.ok [("id", i), ("userId", u), ("title", t),
                 ("description", de), ("imageUrl", im), ("tags", tg)]
  | DetailLevel.detailed => Except.ok recipe

/-- The mapping form of an `Ingredient`, as stored in mock data. -/
def ingredientToDict (i : Ingredient) : PVal :=
  PVal.vDict [("id", PVal.vStr i.id), ("name", PVal.vStr i.name),
              ("amount", PVal.vStr i.amount), ("unit", PVal.vStr i.unit)]

/-- The mapping form of a `Step`, as stored in mock data. -/
def stepToDict (s : Step) : PVal :=
  PVal.vDict [("id", PVal.vStr s.id), ("instructions", PVal.vStr s.instructions),
              ("ingredients", PVal.vList (s.ingredients.map PVal.vStr))]

/-- The mapping form of a well-typed `Recipe` record, with the keys of the
TypedDict in declaration order. -/
def recipeToDict (r : Recipe) : PyDict :=
  [("id", PVal.vStr r.id), ("userId", PVal.vStr r.userId),
   ("title", PVal.vStr r.title), ("description", PVal.vStr r.description),
   ("prepTime", PVal.vInt r.prepTime), ("cookTime", PVal.vInt r.cookTime),
   ("servings", PVal.vInt r.servings), ("imageUrl", PVal.vStr r.imageUrl),
   ("ingredients", PVal.vList (r.ingredients.map ingredientToDict)),
   ("steps", PVal.vList (r.steps.map stepToDict)),
   ("tags", PVal.vList (r.tags.map PVal.vStr)),
   ("createdAt", PVal.vStr r.createdAt), ("updatedAt", PVal.vStr r.updatedAt)]

/-- `_format_recipe` applied to a well-typed record; the `KeyError` branch
is unreachable there (proved in `format_simple_ok`). -/
def format_recipe_total (r : Recipe) (dl : DetailLevel) : PyDict :=
  match format_recipe (recipeToDict r) dl with
  | Except.ok d => d
  | Except.error _ => []

/-! ## Service and endpoint (RecipesService.get_list, endpoints/recipes.py) -/

/-- The pagination metadata block built by `RecipesService.get_list`
(lines 63-73). -/
structure Pagination where
  page : Nat
  page_size : Nat
  total : Nat
  total_pages : Nat
  has_next : Bool
  has_previous : Bool
deriving DecidableEq

/-- The dict returned by `RecipesService.get_list`. -/
structure ListResult where
  recipes : List PyDict
  pagination : Pagination

/-- `RecipesService.get_list` (lines 22-73): one repository round trip,
ceiling-division page count (`0` when the filtered total is `0`), flags
`has_next = page < total_pages` and `has_previous = page > 1`. -/
def service_get_list (store : List Recipe) (page page_size : Nat)
    (search user_id : Option String) (detail_level : DetailLevel) : ListResult :=
  let pr := mocked_get_list store user_id search page page_size
  let total := pr.2
  let total_pages := if total > 0 then (total + page_size - 1) / page_size else 0
  { recipes := pr.1.map (fun r => format_recipe_total r detail_level)
    pagination :=
      { page := page
        page_size := page_size
        total := total
        total_pages := total_pages
        has_next := decide (page < total_pages)
        has_previous := decide (page > 1) } }

/-- HTTP-level outcome of the `get_list` endpoint: a 200 payload or a
400 validation response. The source wraps the message in a JSON error
object; only the message text is modelled (quotes around the two level
names in the source text are omitted). -/
inductive EndpointResp where
  | ok (result : ListResult)
  | badRequest (msg : String)

/-- The branch taken by `detail_level` after membership in
`[simple, detailed]` has been checked. -/
def parseDetail (s : String) : DetailLevel :=
  if s = "simple" then DetailLevel.simple else DetailLevel.detailed

/-- `get_list` in apps/recipe/endpoints/recipes.py (lines 46-82): validate
`page ≥ 1`, then `page_size ≥ 1`, then `detail_level` membership, each
returning a 400 before the service (and hence the repository) runs. The
second component records whether the repository was invoked. -/
def endpoint_get_list (store : List Recipe) (page page_size : Int)
    (search user_id : Option String) (detail_level : String) :
    EndpointResp × Bool :=
  if page < 1 then
    (EndpointResp.badRequest "page must be greater than 0", false)
  else if page_size < 1 then
    (EndpointResp.badRequest "page_size must be greater than 0", false)
  else if ¬(detail_level = "simple" ∨ detail_level = "detailed") then
    (EndpointResp.badRequest "detail_level must be simple or detailed", false)
  else
    (EndpointResp.ok (service_get_list store page.toNat page_size.toNat
        search user_id (parseDetail detail_level)), true)

/-! ## Mock repository mutations at the dict level
(MockedRecipesRepository.create / update / delete) -/

/-- `MockedRecipesRepository.create` (lines 86-96): deep-copy and append;
the copies are the identity at this value level, and no id check of any
kind is performed. Returns (new store, returned record). -/
def mocked_create (store : List PyDict) (recipe : PyDict) :
    List PyDict × PyDict :=
  (store ++ [recipe], recipe)

/-- `MockedRecipesRepository.update` (lines 98-113): find the first record
whose `id` value equals `recipe_id`, apply `dict.update`, store the result
in place and return it; `None` when no record matches. Returns (returned
record, new store). -/
def mocked_update (store : List PyDict) (recipe_id : String)
    (recipe_data : PyDict) : Option PyDict × List PyDict :=
  match store with
  | [] => (Option.none, [])
  | r :: rest =>
      if pvalIsStr (alistGet r "id") recipe_id then
        let updated := pyDictUpdate r recipe_data
        (some updated, updated :: rest)
      else
        let tail := mocked_update rest recipe_id recipe_data
        (tail.1, r :: tail.2)

/-- `MockedRecipesRepository.delete` (lines 115-123): remove the first
record whose `id` value equals `recipe_id`. Returns (new store, success). -/
def mocked_delete (store : List PyDict) (recipe_id : String) :
    List PyDict × Bool :=
  match store with
  | [] => ([], false)
  | r :: rest =>
      if pvalIsStr (alistGet r "id") recipe_id then (rest, true)
      else
        let tail := mocked_delete rest recipe_id
        (r :: tail.1, tail.2)

/-- The id values of a store, in order. -/
def storeIds (store : List PyDict) : List (Option PVal) :=
  store.map (fun r => alistGet r "id")

/-! ## Database backend update (DatabaseRecipesRepository.update), at the
record level. The ORM rows of one recipe are flattened the way
`_model_to_dict` flattens them. -/

/-- `datetime.fromisoformat` preprocessing of line 254: only the textual
`Z` to `+00:00` normalisation is kept; the parsed value is represented by
the normalised string. -/
def dbParseDatetime (s : String) : String :=
  s.replace "Z" "+00:00"

/-- A Python value at the heap level. -/
inductive HVal where
  | hStr (s : String)
  | hInt (n : Int)
  | hRef (a : Nat)
  | hNone
deriving DecidableEq

/-- A mutable heap object: a list or a string-keyed dict. -/
inductive HObj where
  | oList (items : List HVal)
  | oDict (entries : List (String × HVal))
deriving DecidableEq

/-- The heap: objects addressed by position; allocation appends. -/
abbrev Heap := List HObj

/-- The entries of the dict object at address `a`, when `a` holds one. -/
def heapDictEntries (h : Heap) (a : Nat) : Option (List (String × HVal)) :=
  match h[a]? with
  | some (HObj.oDict es) => some es
  | _ => Option.none

/-- Read key `k` of the dict object at address `a`. -/
def hDictGet (h : Heap) (a : Nat) (k : String) : Option HVal :=
  match heapDictEntries h a with
  | some es => alistGet es k
  | Option.none => Option.none

/-- Subscript `es[k]` with `KeyError` on a missing key. -/
def hIndex (es : List (String × HVal)) (k : String) : Except Unit HVal :=
  match alistGet es k with
  | some v => Except.ok v
  | Option.none => Except.error ()

/-- `RecipesService._format_recipe` at the heap level: `simple` allocates
a new dict whose six values are the ones read from the source dict
(references included, so nested objects are shared); `detailed` is
`recipe.copy()`, a new dict sharing every value of the source — a shallow
copy. Returns the new heap and the address of the formatted dict. -/
def heap_format_recipe (h : Heap) (a : Nat) (dl : DetailLevel) :
    Except Unit (Heap × Nat) :=
  match heapDictEntries h a with
  | Option.none => Except.error ()
  | some es =>
    match dl with
    | DetailLevel.simple => do
        let i ← hIndex es "id"
        let u ← hIndex es "userId"
        let t ← hIndex es "title"
        let de ← hIndex es "description"
        let im ← hIndex es "imageUrl"
        let tg ← hIndex es "tags"
        Except.ok (h ++ [HObj.oDict [("id", i), ("userId", u), ("title", t),
          ("description", de), ("imageUrl", im), ("tags", tg)]], h.length)
    | DetailLevel.detailed =>
        Except.ok (h ++ [HObj.oDict es], h.length)

/-- `lst.append(v)` on the list object at address `a` (no effect when `a`
is not a list, which never happens in the scripts proved below). -/
def heapListAppend (h : Heap) (a : Nat) (v : HVal) : Heap :=
  match h[a]? with
  | some (HObj.oList items) => h.set a (HObj.oList (items ++ [v]))
  | _ => h

/-- The tag strings a caller sees when reading `result['tags']` through
the heap: follow the reference stored under `"tags"` to its list object. -/
def tagsView (h : Heap) (a : Nat) : Option (List HVal) :=
  match hDictGet h a "tags" with
  | some (HVal.hRef b) =>
      match h[b]? with
      | some (HObj.oList items) => some items
      | _ => Option.none
  | _ => Option.none

/-! ## Spec-side predicates (from the words of the specification, for the
refinement statements) and concrete inputs used in witnesses and
counterexamples. -/

/-- Modelled from the spec: the search filter is a case-insensitive
substring match on title OR description OR any tag string. -/
def specSearchMatch (q : String) (r : Recipe) : Prop :=
  pyLower q <:+: pyLower r.title ∨
  pyLower q <:+: pyLower r.description ∨
  ∃ t ∈ r.tags, pyLower q <:+: pyLower t

/-- Modelled from the spec, amended: the owner filter is exact string
equality on the owner identifier when a filter string is supplied, except
that an empty filter string (falsy in Python) excludes nothing. -/
def specOwnerKeep (uf : Option String) (r : Recipe) : Prop :=
  ∀ u, uf = some u → u = "" ∨ r.userId = u

/-- The owner condition exactly as claim C2 words it: exact equality on
the owner identifier whenever the filter is supplied. -/
def claimOwnerKeep (uf : Option String) (r : Recipe) : Prop :=
  ∀ u, uf = some u → r.userId = u

/-- The simple projection of a record, as `_format_recipe` builds it. -/
def simpleView (r : Recipe) : PyDict :=
  [("id", PVal.vStr r.id), ("userId", PVal.vStr r.userId),
   ("title", PVal.vStr r.title), ("description", PVal.vStr r.description),
   ("imageUrl", PVal.vStr r.imageUrl),
   ("tags", PVal.vList (r.tags.map PVal.vStr))]

/-- A concrete well-typed recipe whose owner is the non-empty string
`"a"`. -/
def cexRecipe : Recipe :=
  { id := "1", userId := "a", title := "t", description := "d",
    prepTime := 0, cookTime := 0, servings := 1, imageUrl := "",
    ingredients := [], steps := [], tags := [],
    createdAt := "", updatedAt := "" }

/-- Entries of a source recipe dict whose `tags` value is a reference to
the list object at address 1. Only the keys read by the simple projection
are included; they are all the heap script needs. -/
def cexEntries : List (String × HVal) :=
  [("id", HVal.hStr "1"), ("userId", HVal.hStr "u"), ("title", HVal.hStr "t"),
   ("description", HVal.hStr "d"), ("imageUrl", HVal.hStr ""),
   ("tags", HVal.hRef 1)]

/-- Heap holding the source recipe dict at address 0 and its tags list at
address 1. -/
def cexHeap : Heap :=
  [HObj.oDict cexEntries, HObj.oList [HVal.hStr "a"]]

/-- The heap after formatting the source at `simple` (the simple
projection happens to list the same six entries in the same order). -/
def cexH1 : Heap := cexHeap ++ [HObj.oDict cexEntries]

/-- The heap after additionally formatting the source at `detailed`. -/
def cexH2 : Heap := cexH1 ++ [HObj.oDict cexEntries]

/-- A one-record store entry whose id is `"1"`. -/
def dupRecipe : PyDict :=
  [("id", PVal.vStr "1"), ("title", PVal.vStr "x")]

/-! ## Helper lemmas -/

theorem strContains_iff (n : List Char) : ∀ h : List Char,
    strContains n h = true ↔ n <:+: h := by
  intro h
  induction h with
  | nil =>
      simp [strContains, List.isPrefixOf_iff_prefix]
  | cons a t ih =>
      rw [strContains]
      simp [List.isPrefixOf_iff_prefix, ih, List.infix_cons_iff]

theorem searchHit_iff (q : String) (r : Recipe) :
    searchHit q r = true ↔ specSearchMatch q r := by
  simp [searchHit, specSearchMatch, strContains_iff, List.any_eq_true, or_assoc]

theorem specSearchMatch_empty (r : Recipe) : specSearchMatch "" r := by
  left
  show pyLower "" <:+: pyLower r.title
  have : pyLower "" = [] := rfl
  rw [this]
  exact List.nil_infix

theorem ceil_mul_ge (N s : Nat) (hs : 1 ≤ s) : N ≤ (N + s - 1) / s * s := by
  have h0 : 0 < s := hs
  have h2 := Nat.div_add_mod (N + s - 1) s
  have h1 : (N + s - 1) % s < s := Nat.mod_lt _ h0
  rw [Nat.mul_comm]
  set X := s * ((N + s - 1) / s) with hX
  set R := (N + s - 1) % s with hR
  omega

theorem ceil_min (N s m : Nat) (hs : 1 ≤ s) (h : N ≤ m * s) :
    (N + s - 1) / s ≤ m := by
  have h0 : 0 < s := hs
  refine (Nat.div_le_iff_le_mul_add_pred h0).mpr ?_
  rw [Nat.mul_comm] at h
  set Y := s * m with hY
  omega

theorem flatten_page_slices {α : Type} (l : List α) (s : Nat) : ∀ n : Nat,
    ((List.range n).map (fun i => (l.drop (i * s)).take s)).flatten
      = l.take (n * s) := by
  intro n
  induction n with
  | zero => simp
  | succ k ih =>
      rw [List.range_succ, List.map_append, List.flatten_append]
      simp only [List.map_cons, List.map_nil, List.flatten_cons,
        List.flatten_nil, List.append_nil]
      rw [ih, Nat.succ_mul, List.take_add]

theorem key_updEntry (upd : PyDict) (e : String × PVal) :
    (updEntry upd e).1 = e.1 := by
  unfold updEntry
  cases alistGet upd e.1 <;> rfl

theorem alistGet_append_some {α : Type} (d1 d2 : List (String × α)) (k : String)
    (v : α) (h : alistGet d1 k = some v) : alistGet (d1 ++ d2) k = some v := by
  induction d1 with
  | nil => simp [alistGet] at h
  | cons e rest ih =>
      obtain ⟨k0, v0⟩ := e
      rw [alistGet] at h
      rw [List.cons_append, alistGet]
      by_cases he : k0 = k
      · simpa [he] using h
      · simp only [he, if_false] at h ⊢
        exact ih h

theorem alistGet_append_none {α : Type} (d1 d2 : List (String × α)) (k : String)
    (h : alistGet d1 k = Option.none) : alistGet (d1 ++ d2) k = alistGet d2 k := by
  induction d1 with
  | nil => simp
  | cons e rest ih =>
      obtain ⟨k0, v0⟩ := e
      rw [alistGet] at h
      rw [List.cons_append, alistGet]
      by_cases he : k0 = k
      · simp [he] at h
      · simp only [he, if_false] at h ⊢
        exact ih h

theorem alistGet_map_updEntry_some (d upd : PyDict) (k : String) (w : PVal)
    (hd : alistGet d k = some w) :
    alistGet (d.map (updEntry upd)) k =
      match alistGet upd k with
      | some v => some v
      | Option.none => some w := by
  induction d with
  | nil => simp [alistGet] at hd
  | cons e rest ih =>
      obtain ⟨k0, v0⟩ := e
      rw [alistGet] at hd
      by_cases he : k0 = k
      · subst he
        rw [if_pos rfl] at hd
        injection hd with hv
        subst hv
        unfold updEntry
        cases hu : alistGet upd k0 with
        | some v => simp [alistGet, hu]
        | none => simp [alistGet, hu]
      · rw [if_neg he] at hd
        rw [List.map_cons, alistGet, key_updEntry, if_neg he]
        exact ih hd

theorem alistGet_map_updEntry_none (d upd : PyDict) (k : String)
    (hd : alistGet d k = Option.none) :
    alistGet (d.map (updEntry upd)) k = Option.none := by
  induction d with
  | nil => simp [alistGet]
  | cons e rest ih =>
      rw [List.map_cons, alistGet, key_updEntry]
      obtain ⟨k0, v0⟩ := e
      rw [alistGet] at hd
      by_cases he : k0 = k
      · simp [he] at hd
      · simp only [he, if_false] at hd ⊢
        exact ih hd

theorem alistGet_filter_none {α : Type} (upd : List (String × α)) (k : String)
    (p : String × α → Bool) (h : alistGet upd k = Option.none) :
    alistGet (upd.filter p) k = Option.none := by
  induction upd with
  | nil => simp [alistGet]
  | cons e rest ih =>
      rw [List.filter_cons]
      obtain ⟨k0, v0⟩ := e
      rw [alistGet] at h
      by_cases he : k0 = k
      · simp [he] at h
      · simp only [he, if_false] at h
        by_cases hpe : p (k0, v0) = true
        · simp only [hpe, if_true]
          rw [alistGet, if_neg he]
          exact ih h
        · simp only [hpe, if_false]
          exact ih h

theorem alistGet_pyDictUpdate_none (d upd : PyDict) (k : String)
    (h : alistGet upd k = Option.none) :
    alistGet (pyDictUpdate d upd) k = alistGet d k := by
  unfold pyDictUpdate
  cases hd : alistGet d k with
  | some w =>
      refine alistGet_append_some _ _ _ _ ?_
      rw [alistGet_map_updEntry_some d upd k w hd, h]
  | none =>
      rw [alistGet_append_none _ _ _ (alistGet_map_updEntry_none d upd k hd)]
      exact alistGet_filter_none upd k _ h

theorem mocked_delete_ids_sublist (rid : String) : ∀ store : List PyDict,
    (storeIds (mocked_delete store rid).1).Sublist (storeIds store) := by
  intro store
  induction store with
  | nil => exact List.Sublist.refl _
  | cons r rest ih =>
      rw [mocked_delete]
      by_cases hc : pvalIsStr (alistGet r "id") rid = true
      · simp only [hc, if_true]
        exact List.sublist_cons_of_sublist _ (List.Sublist.refl _)
      · simp only [Bool.not_eq_true] at hc
        simp only [hc, Bool.false_eq_true, if_false]
        exact List.Sublist.cons₂ _ ih

theorem mocked_create_ids (store : List PyDict) (r : PyDict) :
    storeIds (mocked_create store r).1 = storeIds store ++ [alistGet r "id"] := by
  simp [mocked_create, storeIds]

theorem mocked_update_ids (rid : String) (p : PyDict)
    (hid : alistGet p "id" = Option.none) : ∀ store : List PyDict,
    storeIds (mocked_update store rid p).2 = storeIds store := by
  intro store
  induction store with
  | nil => rfl
  | cons r rest ih =>
      rw [mocked_update]
      by_cases hc : pvalIsStr (alistGet r "id") rid = true
      · simp only [hc, if_true]
        simp [storeIds, alistGet_pyDictUpdate_none r p "id" hid]
      · simp only [Bool.not_eq_true] at hc
        simp only [hc, Bool.false_eq_true, if_false]
        simp only [storeIds, List.map_cons] at ih ⊢
        rw [ih]

/-- C8 (amended): formatting never mutates the source record — both
detail levels only allocate one fresh top-level mapping at the end of the
heap, leaving every existing heap object (source record and earlier
formatting results included) unchanged. The results are however shallow:
the fresh mapping holds the very values of the source, so nested
collections are shared by reference, which is what the counterexample
exhibits. -/
theorem C8_format_allocates_only (h : Heap) (a : Nat) (dl : DetailLevel)
    (h2 : Heap) (a2 : Nat)
    (hok : heap_format_recipe h a dl = Except.ok (h2, a2)) :
    (∀ i, i < h.length → h2[i]? = h[i]?) ∧ a2 = h.length := by
  unfold heap_format_recipe at hok
  cases hd : heapDictEntries h a with
  | none => rw [hd] at hok; exact absurd hok (by simp)
  | some es =>
      rw [hd] at hok
      have key : ∃ o : HObj, h2 = h ++ [o] ∧ a2 = h.length := by
        cases dl with
        | detailed =>
            simp only [Except.ok.injEq, Prod.mk.injEq] at hok
            exact ⟨_, hok.1.symm, hok.2.symm⟩
        | simple =>
            simp only [bind, Except.bind] at hok
            cases e1 : hIndex es "id" with
            | error u => rw [e1] at hok; simp at hok
            | ok v1 =>
            rw [e1] at hok
            cases e2 : hIndex es "userId" with
            | error u => rw [e2] at hok; simp at hok
            | ok v2 =>
            rw [e2] at hok
            cases e3 : hIndex es "title" with
            | error u => rw [e3] at hok; simp at hok
            | ok v3 =>
            rw [e3] at hok
            cases e4 : hIndex es "description" with
            | error u => rw [e4] at hok; simp at hok
            | ok v4 =>
            rw [e4] at hok
            cases e5 : hIndex es "imageUrl" with
            | error u => rw [e5] at hok; simp at hok
            | ok v5 =>
            rw [e5] at hok
            cases e6 : hIndex es "tags" with
            | error u => rw [e6] at hok; simp at hok
            | ok v6 =>
            rw [e6] at hok
            simp only [Except.ok.injEq, Prod.mk.injEq] at hok
            exact ⟨_, hok.1.symm, hok.2.symm⟩
      obtain ⟨o, rfl, rfl⟩ := key
      exact ⟨fun i hi => List.getElem?_append_left hi, rfl⟩

theorem format_simple_ok (r : Recipe) :
    format_recipe (recipeToDict r) DetailLevel.simple = Except.ok (simpleView r) := by
  rfl

/-! ## Claim theorems -/

/-- C1 (amended): for every store, filters, page `p ≥ 1`, page size
`s ≥ 1` and detail level, the pagination block of
`RecipesService.get_list` reports the filtered total `N`; for `N > 0`
`total_pages` is the ceiling of `N / s` (characterised as the least `m`
with `N ≤ m * s`); for `N = 0` `total_pages = 0`; `has_next` is true iff
`p < total_pages` (hence false whenever `N = 0`); and `has_previous` is
true iff `p > 1` — also when `N = 0`, which is where the original claim
fails. -/
theorem C1_pagination_metadata (store : List Recipe) (uf sf : Option String)
    (p s : Nat) (dl : DetailLevel) (hp : 1 ≤ p) (hs : 1 ≤ s) :
    let P := (service_get_list store p s sf uf dl).pagination
    let N := (filterRecipes store uf sf).length
    P.total = N
    ∧ (0 < N → N ≤ P.total_pages * s ∧ ∀ m : Nat, N ≤ m * s → P.total_pages ≤ m)
    ∧ (N = 0 → P.total_pages = 0)
    ∧ (P.has_next = true ↔ p < P.total_pages)
    ∧ (P.has_previous = true ↔ 1 < p)
    ∧ (N = 0 → P.has_next = false) := by
  intro P N
  have htp : P.total_pages = if 0 < N then (N + s - 1) / s else 0 := rfl
  refine ⟨rfl, ?_, ?_, ?_, ?_, ?_⟩
  · intro hN
    have htp2 : P.total_pages = (N + s - 1) / s := by rw [htp, if_pos hN]
    refine ⟨?_, ?_⟩
    · rw [htp2]
      exact ceil_mul_ge N s hs
    · intro m hm
      rw [htp2]
      exact ceil_min N s m hs hm
  · intro hN
    rw [htp, if_neg (by omega)]
  · exact decide_eq_true_iff
  · exact decide_eq_true_iff
  · intro hN
    have h0 : P.total_pages = 0 := by rw [htp, if_neg (by omega)]
    have hnot : ¬(p < P.total_pages) := by rw [h0]; omega
    exact decide_eq_false hnot

/-- C1 counterexample: with an empty store (filtered total `N = 0`),
page 2 and page size 1, the metadata block has `total = 0` but
`has_previous = true`, contradicting the claim that for `N = 0` both
flags are false. -/
theorem C1_pagination_metadata_cex :
    (service_get_list ([] : List Recipe) 2 1 Option.none Option.none
      DetailLevel.detailed).pagination.total = 0
    ∧ (service_get_list ([] : List Recipe) 2 1 Option.none Option.none
      DetailLevel.detailed).pagination.has_previous = true :=
  ⟨rfl, rfl⟩

/-- Witness for C1: the `has_previous` biconditional instantiated on a
one-recipe store at page 2, page size 1. -/
theorem C1_pagination_metadata_witness :
    ((service_get_list [cexRecipe] 2 1 Option.none Option.none
      DetailLevel.detailed).pagination.has_previous = true ↔ 1 < 2) :=
  (C1_pagination_metadata [cexRecipe] Option.none Option.none 2 1
    DetailLevel.detailed (by decide) (by decide)).2.2.2.2.1

/-- C3 (confirmed): for fixed store, filters and page size `s ≥ 1`, every
page reports the same filtered total, and concatenating the item slices of
pages `1 .. ceil(N / s)` yields exactly the filtered sequence — each
filtered recipe exactly once, no duplicate, no omission. -/
theorem C3_page_partition (store : List Recipe) (uf sf : Option String)
    (s : Nat) (hs : 1 ≤ s) :
    (∀ p : Nat, (mocked_get_list store uf sf p s).2
        = (filterRecipes store uf sf).length)
    ∧ ((List.range (((filterRecipes store uf sf).length + s - 1) / s)).map
        (fun i => (mocked_get_list store uf sf (i + 1) s).1)).flatten
      = filterRecipes store uf sf := by
  constructor
  · intro p
    rfl
  · have hmap : ∀ i ∈ List.range
        (((filterRecipes store uf sf).length + s - 1) / s),
        (mocked_get_list store uf sf (i + 1) s).1
          = ((filterRecipes store uf sf).drop (i * s)).take s := by
      intro i _
      show (((filterRecipes store uf sf).drop ((i + 1 - 1) * s)).take s) = _
      rw [Nat.add_sub_cancel]
    rw [List.map_congr_left hmap, flatten_page_slices]
    exact List.take_of_length_le
      (ceil_mul_ge (filterRecipes store uf sf).length s hs)

/-- Witness for C3: the constant-total component instantiated on a
one-recipe store with `s = 1`, read at page 1. -/
theorem C3_page_partition_witness :
    (mocked_get_list [cexRecipe] Option.none Option.none 1 1).2
      = (filterRecipes [cexRecipe] Option.none Option.none).length :=
  (C3_page_partition [cexRecipe] Option.none Option.none 1 (by decide)).1 1

/-- C4 (confirmed): when the requested page starts at or beyond the
filtered total (`(p-1)*s ≥ N`), `get_list` returns the empty slice
together with the unchanged filtered total — no error, no smaller
total. -/
theorem C4_page_past_end (store : List Recipe) (uf sf : Option String)
    (p s : Nat) (_hp : 1 ≤ p)
    (hpast : (filterRecipes store uf sf).length ≤ (p - 1) * s) :
    mocked_get_list store uf sf p s
      = ([], (filterRecipes store uf sf).length) := by
  simp only [mocked_get_list]
  rw [List.drop_eq_nil_of_le hpast]
  simp

/-- Witness for C4: a one-recipe store read at page 2 with page size 5
gives the empty slice and total 1. -/
theorem C4_page_past_end_witness :
    mocked_get_list [cexRecipe] Option.none Option.none 2 5
      = ([], (filterRecipes [cexRecipe] Option.none Option.none).length) :=
  C4_page_past_end [cexRecipe] Option.none Option.none 2 5 (by decide) (by decide)

/-- C2 (amended): a recipe is in the matched set of the mock
`get_list` iff it is in the store, passes the owner filter — exact
equality on the owner identifier when the supplied filter string is
non-empty; an empty filter string is falsy in Python and excludes
nothing — and, when a search query is supplied, satisfies the
case-insensitive substring match on title OR description OR any tag
(an empty query matches every recipe, as the empty string is a substring
of every string). -/
theorem C2_filter_characterisation (l : List Recipe) (uf sf : Option String)
    (r : Recipe) :
    r ∈ filterRecipes l uf sf ↔
      r ∈ l ∧ specOwnerKeep uf r ∧ (∀ q, sf = some q → specSearchMatch q r) := by
  have hmem1 : r ∈ (match uf with
      | Option.none => l
      | some u => if u = "" then l else l.filter (fun x => x.userId == u))
      ↔ r ∈ l ∧ specOwnerKeep uf r := by
    cases uf with
    | none => simp [specOwnerKeep]
    | some u =>
        dsimp only
        by_cases hu : u = ""
        · subst hu
          simp [specOwnerKeep]
        · rw [if_neg hu, List.mem_filter]
          simp only [specOwnerKeep, Option.some.injEq, beq_iff_eq]
          constructor
          · rintro ⟨h1, h2⟩
            refine ⟨h1, fun u0 hu0 => ?_⟩
            cases hu0
            exact Or.inr h2
          · rintro ⟨h1, h2⟩
            rcases h2 u rfl with h | h
            · exact absurd h hu
            · exact ⟨h1, h⟩
  simp only [filterRecipes]
  cases sf with
  | none =>
      dsimp only
      rw [hmem1]
      simp
  | some q =>
      dsimp only
      by_cases hq : q = ""
      · subst hq
        rw [if_pos rfl, hmem1]
        constructor
        · rintro ⟨h1, h2⟩
          refine ⟨h1, h2, fun q0 hq0 => ?_⟩
          cases hq0
          exact specSearchMatch_empty r
        · rintro ⟨h1, h2, _⟩
          exact ⟨h1, h2⟩
      · rw [if_neg hq, List.mem_filter, hmem1]
        constructor
        · rintro ⟨⟨h1, h2⟩, h3⟩
          refine ⟨h1, h2, fun q0 hq0 => ?_⟩
          cases hq0
          exact (searchHit_iff q r).mp h3
        · rintro ⟨h1, h2, h3⟩
          exact ⟨⟨h1, h2⟩, (searchHit_iff q r).mpr (h3 q rfl)⟩

/-- C2 counterexample: with the supplied owner filter `some ""` the code
keeps a recipe owned by `"a"` (Python `if user_id:` treats the empty
string as no filter), although the claimed characterisation — exact
equality whenever a filter is supplied — rejects it. -/
theorem C2_filter_characterisation_cex :
    cexRecipe ∈ filterRecipes [cexRecipe] (some "") Option.none
    ∧ ¬ claimOwnerKeep (some "") cexRecipe := by
  constructor
  · show cexRecipe ∈ [cexRecipe]
    exact List.mem_singleton.mpr rfl
  · intro h
    exact absurd (h "" rfl) (by decide)

/-- C5 (confirmed): formatting a well-typed recipe record at `simple`
yields a mapping whose keys are exactly id, userId, title, description,
imageUrl and tags — in particular no `ingredients` or `steps` key — while
formatting at `detailed` succeeds and always carries the `ingredients`
and `steps` keys (their lists may be empty). -/
theorem C5_projection_keys (r : Recipe) :
    format_recipe (recipeToDict r) DetailLevel.simple = Except.ok (simpleView r)
    ∧ (simpleView r).map Prod.fst
        = ["id", "userId", "title", "description", "imageUrl", "tags"]
    ∧ alistGet (simpleView r) "ingredients" = Option.none
    ∧ alistGet (simpleView r) "steps" = Option.none
    ∧ format_recipe (recipeToDict r) DetailLevel.detailed
        = Except.ok (recipeToDict r)
    ∧ alistGet (recipeToDict r) "ingredients"
        = some (PVal.vList (r.ingredients.map ingredientToDict))
    ∧ alistGet (recipeToDict r) "steps"
        = some (PVal.vList (r.steps.map stepToDict)) :=
  ⟨rfl, rfl, rfl, rfl, rfl, rfl, rfl⟩

/-- C10 (confirmed): on an arbitrary mapping, the simple projection
succeeds exactly when all six projected keys are present (a missing key —
for instance a missing `imageUrl` — is a `KeyError`, never an omitted or
defaulted field), while the detailed projection always succeeds and
returns the mapping itself. -/
theorem C10_simple_partiality (d : PyDict) :
    ((format_recipe d DetailLevel.simple).isOk = true ↔
      (alistGet d "id").isSome = true ∧ (alistGet d "userId").isSome = true
      ∧ (alistGet d "title").isSome = true
      ∧ (alistGet d "description").isSome = true
      ∧ (alistGet d "imageUrl").isSome = true
      ∧ (alistGet d "tags").isSome = true)
    ∧ format_recipe d DetailLevel.detailed = Except.ok d := by
  refine ⟨?_, rfl⟩
  simp only [format_recipe, pyIndex, bind, Except.bind]
  cases h1 : alistGet d "id" with
  | none => simp [Except.isOk, Except.toBool]
  | some v1 =>
  cases h2 : alistGet d "userId" with
  | none => simp [Except.isOk, Except.toBool]
  | some v2 =>
  cases h3 : alistGet d "title" with
  | none => simp [Except.isOk, Except.toBool]
  | some v3 =>
  cases h4 : alistGet d "description" with
  | none => simp [Except.isOk, Except.toBool]
  | some v4 =>
  cases h5 : alistGet d "imageUrl" with
  | none => simp [Except.isOk, Except.toBool]
  | some v5 =>
  cases h6 : alistGet d "tags" with
  | none => simp [Except.isOk, Except.toBool]
  | some v6 => simp [Except.isOk, Except.toBool]

/-- C6 (confirmed): the endpoint wrapping of the list operation rejects
`page < 1`, `page_size < 1` and an unrecognised `detail_level` with the
corresponding field-specific 400 message before the repository is
invoked (second component `false`), and for valid arguments returns the
service result with no validation error. -/
theorem C6_list_validation (store : List Recipe) (page page_size : Int)
    (search user_id : Option String) (dl : String) :
    (page < 1 →
      endpoint_get_list store page page_size search user_id dl
        = (EndpointResp.badRequest "page must be greater than 0", false))
    ∧ (1 ≤ page → page_size < 1 →
      endpoint_get_list store page page_size search user_id dl
        = (EndpointResp.badRequest "page_size must be greater than 0", false))
    ∧ (1 ≤ page → 1 ≤ page_size → ¬(dl = "simple" ∨ dl = "detailed") →
      endpoint_get_list store page page_size search user_id dl
        = (EndpointResp.badRequest "detail_level must be simple or detailed",
           false))
    ∧ (1 ≤ page → 1 ≤ page_size → (dl = "simple" ∨ dl = "detailed") →
      endpoint_get_list store page page_size search user_id dl
        = (EndpointResp.ok (service_get_list store page.toNat page_size.toNat
            search user_id (parseDetail dl)), true)) := by
  refine ⟨?_, ?_, ?_, ?_⟩
  · intro h
    unfold endpoint_get_list
    rw [if_pos h]
  · intro h1 h2
    unfold endpoint_get_list
    rw [if_neg (by omega), if_pos h2]
  · intro h1 h2 h3
    unfold endpoint_get_list
    rw [if_neg (by omega), if_neg (by omega), if_pos h3]
  · intro h1 h2 h3
    unfold endpoint_get_list
    rw [if_neg (by omega), if_neg (by omega), if_neg (not_not.mpr h3)]

/-- Witness for C6: page 0 is rejected with the page message and no
repository call; page 1 with valid arguments yields the service result. -/
theorem C6_list_validation_witness :
    endpoint_get_list ([] : List Recipe) 0 10 Option.none Option.none "detailed"
      = (EndpointResp.badRequest "page must be greater than 0", false)
    ∧ endpoint_get_list ([] : List Recipe) 1 10 Option.none Option.none "detailed"
      = (EndpointResp.ok (service_get_list [] (1 : Int).toNat (10 : Int).toNat
          Option.none Option.none (parseDetail "detailed")), true) :=
  ⟨(C6_list_validation [] 0 10 Option.none Option.none "detailed").1 (by decide),
   (C6_list_validation [] 1 10 Option.none Option.none "detailed").2.2.2
     (by decide) (by decide) (Or.inr rfl)⟩

/-- C8 counterexample: formatting one source record at `simple` (result
address 2) and then at `detailed` (result address 3) yields mappings that
both hold the very reference (address 1) of the source's tags list;
appending `"b"` to the tags list reached through the detailed result is
visible through the simple result and through the source record — the
three are not independent, against the claim. -/
theorem C8_format_allocates_only_cex :
    heap_format_recipe cexHeap 0 DetailLevel.simple = Except.ok (cexH1, 2)
    ∧ heap_format_recipe cexH1 0 DetailLevel.detailed = Except.ok (cexH2, 3)
    ∧ hDictGet cexH2 2 "tags" = some (HVal.hRef 1)
    ∧ hDictGet cexH2 3 "tags" = some (HVal.hRef 1)
    ∧ tagsView cexH2 2 = some [HVal.hStr "a"]
    ∧ tagsView cexH2 0 = some [HVal.hStr "a"]
    ∧ tagsView (heapListAppend cexH2 1 (HVal.hStr "b")) 3
        = some [HVal.hStr "a", HVal.hStr "b"]
    ∧ tagsView (heapListAppend cexH2 1 (HVal.hStr "b")) 2
        = some [HVal.hStr "a", HVal.hStr "b"]
    ∧ tagsView (heapListAppend cexH2 1 (HVal.hStr "b")) 0
        = some [HVal.hStr "a", HVal.hStr "b"] :=
  ⟨rfl, rfl, rfl, rfl, rfl, rfl, rfl, rfl, rfl⟩

/-- Witness for C8: the preservation theorem applied to the concrete
simple-formatting step of the counterexample heap. -/
theorem C8_format_allocates_only_witness :
    cexH1[0]? = cexHeap[0]? ∧ cexH1[1]? = cexHeap[1]? :=
  ⟨(C8_format_allocates_only cexHeap 0 DetailLevel.simple cexH1 2 rfl).1 0
      (by decide),
   (C8_format_allocates_only cexHeap 0 DetailLevel.simple cexH1 2 rfl).1 1
      (by decide)⟩

/-- C9 (amended): id distinctness is preserved by `delete`
unconditionally, by `create` provided the id of the incoming record is
not already in the store (the mock `create` itself performs no check or
assignment), and by `update` whenever the payload does not rebind the
`id` key (the id column of the relational backend is likewise never
written by its update). -/
theorem C9_id_uniqueness :
    (∀ (store : List PyDict) (rid : String),
      (storeIds store).Nodup → (storeIds (mocked_delete store rid).1).Nodup)
    ∧ (∀ (store : List PyDict) (r : PyDict),
      (storeIds store).Nodup → alistGet r "id" ∉ storeIds store →
        (storeIds (mocked_create store r).1).Nodup)
    ∧ (∀ (store : List PyDict) (rid : String) (p : PyDict),
      alistGet p "id" = Option.none →
        storeIds (mocked_update store rid p).2 = storeIds store) := by
  refine ⟨?_, ?_, ?_⟩
  · intro store rid h
    exact List.Nodup.sublist (mocked_delete_ids_sublist rid store) h
  · intro store r h hmem
    rw [mocked_create_ids]
    simp [List.nodup_append, h, hmem]
  · intro store rid p hid
    exact mocked_update_ids rid p hid store

/-- C9 counterexample: starting from a store whose single record has id
`"1"`, `create` with another record of id `"1"` yields a store whose ids
are no longer pairwise distinct — the mock `create` neither assigns nor
validates the id. -/
theorem C9_id_uniqueness_cex :
    (storeIds [dupRecipe]).Nodup
    ∧ ¬ (storeIds (mocked_create [dupRecipe] dupRecipe).1).Nodup := by
  constructor
  · exact List.nodup_singleton _
  · rw [mocked_create_ids]
    intro hnd
    rcases List.nodup_cons.mp hnd with ⟨hn, _⟩
    exact hn (List.mem_singleton.mpr rfl)

/-- Witness for C9: the three components applied to concrete stores. -/
theorem C9_id_uniqueness_witness :
    (storeIds (mocked_delete [dupRecipe] "1").1).Nodup
    ∧ (storeIds (mocked_create [] dupRecipe).1).Nodup
    ∧ storeIds (mocked_update [dupRecipe] "1" [("title", PVal.vStr "y")]).2
        = storeIds [dupRecipe] :=
  ⟨C9_id_uniqueness.1 [dupRecipe] "1" (List.nodup_singleton _),
   C9_id_uniqueness.2.1 [] dupRecipe (by simp [storeIds]) (by simp [storeIds]),
   C9_id_uniqueness.2.2 [dupRecipe] "1" [("title", PVal.vStr "y")] rfl⟩

end Lomith
